import Mathlib

/-
Verification development for serial_logger.py, a utility that reads a
byte stream from a serial port, segments it into records at a separator
byte, filters ignored bytes, validates record length, and appends each
accepted record to a log file with a timestamp.

Bytes are modelled as natural numbers below 256.  External collaborators
(the serial transport, the process logger, the file system, the wall
clock) are modelled as explicit parameters: reads become a list of read
events, the clock becomes a timestamp string argument, and the log file
becomes a string of accumulated content.
-/

namespace SerialLogger

/-- Configuration record mirroring the dataclass SerialConfiguration in
serial_logger.py.  Transport framing fields such as data bits, stop
bits, parity and the float timeout are omitted: they are passed
unchanged to the external serial library and never inspected by the
program logic.  The default values are the dataclass field defaults. -/
structure SerialConfiguration where
  port : String := "/dev/ttyUSB0"
  baudrate : Nat := 115200
  data_seperator : Nat := 10
  remove_byte_list : List Nat := []
  data_file_path : Option String := none
  nominal_data_length : Option Nat := some 8
  data_encoding : String := "utf-8"
deriving DecidableEq, Repr

/-- Mirrors SerialConfiguration.post_init_ in serial_logger.py: an
empty (falsy) remove_byte_list is replaced by the bytes of newline and
carriage return, and an unset data_file_path is replaced by a filename
derived from the current time.  The wall clock and directory lookup are
external, so the ISO timestamp of the current moment is a parameter. -/
def postInit (nowIso : String) (c : SerialConfiguration) : SerialConfiguration :=
  { c with
    remove_byte_list :=
      if c.remove_byte_list = [] then [10, 13] else c.remove_byte_list,
    data_file_path :=
      match c.data_file_path with
      | none => some (nowIso ++ ".csv")
      | some p => some p }

/-- The configuration built by main in serial_logger.py: a
SerialConfiguration with every field left at its default, then run
through post_init_. -/
def defaultSerialConfiguration (nowIso : String) : SerialConfiguration :=
  postInit nowIso {}

/-- Recursion kernel of the UTF-8 decoder below, made structurally
recursive on a fuel argument; every recursive call strips at least one
byte, so any fuel of at least the list length yields the decoding. -/
def utf8DecodeIgnoreFuel : Nat → List Nat → List Char
  | 0, _ => []
  | _, [] => []
  | fuel + 1, b :: rest =>
    if b < 0x80 then
      Char.ofNat b :: utf8DecodeIgnoreFuel fuel rest
    else if b < 0xC2 then
      utf8DecodeIgnoreFuel fuel rest
    else if b < 0xE0 then
      match rest with
      | [] => []
      | b2 :: rest2 =>
        if 0x80 ≤ b2 ∧ b2 < 0xC0 then
          Char.ofNat ((b % 0x20) * 0x40 + b2 % 0x40)
            :: utf8DecodeIgnoreFuel fuel rest2
        else
          utf8DecodeIgnoreFuel fuel (b2 :: rest2)
    else if b < 0xF0 then
      match rest with
      | [] => []
      | b2 :: rest2 =>
        if (if b = 0xE0 then 0xA0 else 0x80) ≤ b2 ∧
            b2 < (if b = 0xED then 0xA0 else 0xC0) then
          match rest2 with
          | [] => []
          | b3 :: rest3 =>
            if 0x80 ≤ b3 ∧ b3 < 0xC0 then
              Char.ofNat ((b % 0x10) * 0x1000 + (b2 % 0x40) * 0x40 + b3 % 0x40)
                :: utf8DecodeIgnoreFuel fuel rest3
            else
              utf8DecodeIgnoreFuel fuel (b3 :: rest3)
        else
          utf8DecodeIgnoreFuel fuel (b2 :: rest2)
    else if b < 0xF5 then
      match rest with
      | [] => []
      | b2 :: rest2 =>
        if (if b = 0xF0 then 0x90 else 0x80) ≤ b2 ∧
            b2 < (if b = 0xF4 then 0x90 else 0xC0) then
          match rest2 with
          | [] => []
          | b3 :: rest3 =>
            if 0x80 ≤ b3 ∧ b3 < 0xC0 then
              match rest3 with
              | [] => []
              | b4 :: rest4 =>
                if 0x80 ≤ b4 ∧ b4 < 0xC0 then
                  Char.ofNat ((b % 8) * 0x40000 + (b2 % 0x40) * 0x1000 +
                      (b3 % 0x40) * 0x40 + b4 % 0x40)
                    :: utf8DecodeIgnoreFuel fuel rest4
                else
                  utf8DecodeIgnoreFuel fuel (b4 :: rest4)
            else
              utf8DecodeIgnoreFuel fuel (b3 :: rest3)
        else
          utf8DecodeIgnoreFuel fuel (b2 :: rest2)
    else
      utf8DecodeIgnoreFuel fuel rest

/-- UTF-8 decoding that drops undecodable bytes, modelling the Python
call bytes.decode with encoding utf-8 and the ignore error handler used
at line 161 of serial_logger.py.  A leading byte that begins an invalid
or truncated sequence is skipped and decoding resumes at the next
byte. -/
def utf8DecodeIgnore (bs : List Nat) : List Char :=
  utf8DecodeIgnoreFuel bs.length bs

/-- Decode a byte buffer into a record string, as done at lines 161 and
162 of serial_logger.py for the configured utf-8 encoding. -/
def decodeRecord (buf : List Nat) : String :=
  (utf8DecodeIgnore buf).asString

/-- One iteration of the byte handling in main (lines 157 to 178 of
serial_logger.py) after a successful one byte read: the byte is
appended to the pending buffer unless it occurs in remove_byte_list,
and then, if it equals data_seperator, the buffer is decoded, emitted
as a record, and reset to empty.  Returns the new buffer together with
the emitted record, if any. -/
def feedByte (cfg : SerialConfiguration) (buf : List Nat) (b : Nat) :
    List Nat × Option String :=
  let buf1 := if b ∈ cfg.remove_byte_list then buf else buf ++ [b]
  if b = cfg.data_seperator then
    ([], some (decodeRecord buf1))
  else
    (buf1, none)

/-- Iterate feedByte over a byte sequence, collecting every emitted
record in order.  This is the segmenter loop of main restricted to a
finite prefix of the input stream. -/
def feedAll (cfg : SerialConfiguration) (buf : List Nat) :
    List Nat → List Nat × List String
  | [] => (buf, [])
  | b :: bs =>
    let step := feedByte cfg buf b
    let rest := feedAll cfg step.1 bs
    (rest.1, step.2.toList ++ rest.2)

/-- Mirrors write_data_point in serial_logger.py (lines 81 to 97).  The
file system is modelled by the current content of the file at
data_file_path, and the wall clock read datetime.now().isoformat() by
the timestamp argument; the function returns the file content after the
scoped append-mode write.  Default arguments of the Python function are
passed explicitly at every call site. -/
def write_data_point (fileContent : String) (data_point : String)
    (timestamp : String) (add_timestamp : Bool) (suffix : String)
    (time_seperator : String) : String :=
  let write_string := data_point ++ suffix
  let write_string :=
    if add_timestamp then timestamp ++ time_seperator ++ write_string
    else write_string
  fileContent ++ write_string

/-- The length check guarding the write in main (lines 166 and 167 of
serial_logger.py): the record is written when nominal_data_length is
None or equals the decoded record length. -/
def lengthCheckPasses (cfg : SerialConfiguration) (current_data_len : Nat) :
    Bool :=
  cfg.nominal_data_length = none ∨ cfg.nominal_data_length = some current_data_len

/-- The recorder step of main (lines 165 to 176 of serial_logger.py):
given an emitted record, either append one timestamped line to the log
file via write_data_point, or, on a length mismatch, log a warning and
leave the file unchanged.  Both branches return normally: the loop
continues either way. -/
def processRecord (cfg : SerialConfiguration) (timestamp : String)
    (fileContent : String) (current_data_point : String) : String :=
  let current_data_len := current_data_point.length
  if lengthCheckPasses cfg current_data_len then
    write_data_point fileContent current_data_point timestamp true "\n" ","
  else
    fileContent

/-- Number of newline characters in a string, used to count the lines
added to the log file by a write. -/
def newlineCount (s : String) : Nat :=
  s.data.count (Char.ofNat 10)

/-- Outcome of one blocking serial_port.read() call, as distinguished
by the exception handler in main (lines 136 to 155 of
serial_logger.py): a successful one byte read, a SerialException whose
text contains the recognized transient signature returned no data, or
any other read failure. -/
inductive ReadEvent
  | success
  | transientFailure
  | otherFailure
deriving DecidableEq, Repr

/-- State of the connection guard in main: running carries the
retry_count variable (lines 134, 149 and 155 of serial_logger.py);
fatalExit records the exit status passed to sys.exit and whether
cleanup_port closed the serial port first (lines 140 to 144); raised is
reached when a non-transient exception propagates out of the loop
(line 153). -/
inductive GuardState
  | running (retry_count : Nat)
  | fatalExit (code : Nat) (portClosed : Bool)
  | raised
deriving DecidableEq, Repr

/-- One transition of the connection guard (lines 135 to 155 of
serial_logger.py).  Returns the successor state and the number of time
units slept before the next read attempt: a transient failure with
retry_count at most 9 increments the counter and sleeps 6 units; with
retry_count above 9 it closes the port and exits with status 2; a
success resets the counter to 0; any other failure re-raises.  The
terminal states absorb further events. -/
def guardStep : GuardState → ReadEvent → GuardState × Nat
  | GuardState.running n, ReadEvent.transientFailure =>
    if n > 9 then (GuardState.fatalExit 2 true, 0)
    else (GuardState.running (n + 1), 6)
  | GuardState.running _, ReadEvent.success => (GuardState.running 0, 0)
  | GuardState.running _, ReadEvent.otherFailure => (GuardState.raised, 0)
  | s, _ => (s, 0)

/-- Iterate guardStep over a sequence of read outcomes, returning the
final state and the total time slept in backoff. -/
def guardRun : GuardState → List ReadEvent → GuardState × Nat
  | s, [] => (s, 0)
  | s, e :: es =>
    let step := guardStep s e
    let rest := guardRun step.1 es
    (rest.1, step.2 + rest.2)

/-- A segmenter configuration with separator newline and an empty
ignore list, as in the first round-trip scenario of the spec.  Note
that main never builds such a configuration, since post_init_ refills
an empty remove_byte_list; the segmenter loop itself is nevertheless
well defined on it. -/
def cfgEmptyIgnore : SerialConfiguration :=
  { data_seperator := 10, remove_byte_list := [] }

/-- A segmenter configuration with separator newline and ignore list
holding only the carriage return byte, as in the second round-trip
scenario of the spec. -/
def cfgCRIgnore : SerialConfiguration :=
  { data_seperator := 10, remove_byte_list := [13] }

/-- C1: a record is emitted exactly on reading the separator byte: the
number of records emitted by the segmenter loop over any byte sequence
equals the number of occurrences of the configured separator byte, and
a sequence with no separator occurrence emits no record. -/
theorem feed_emission_count (cfg : SerialConfiguration) (bs buf : List Nat) :
    ((feedAll cfg buf bs).2).length = bs.count cfg.data_seperator ∧
      (bs.count cfg.data_seperator = 0 → (feedAll cfg buf bs).2 = []) := by
  have main : ∀ bs buf : List Nat,
      ((feedAll cfg buf bs).2).length = bs.count cfg.data_seperator := by
    intro bs
    induction bs with
    | nil => intro buf; simp [feedAll]
    | cons b tl ih =>
      intro buf
      by_cases h : b = cfg.data_seperator
      · simp [feedAll, feedByte, h, ih, List.count_cons]
      · simp [feedAll, feedByte, h, ih, List.count_cons]
  refine ⟨main bs buf, fun h => ?_⟩
  have hlen := main bs buf
  rw [h] at hlen
  exact List.length_eq_zero.mp hlen

/-- C1 witness: with the default configuration, a sequence holding two
newline bytes emits two records, and a sequence with no newline byte
emits none. -/
theorem feed_emission_count_witness :
    ((feedAll (defaultSerialConfiguration "T") []
        [97, 98, 99, 10, 100, 10]).2).length = 2 ∧
      (feedAll (defaultSerialConfiguration "T") [] [97, 98, 99]).2 = [] := by
  constructor
  · have h := (feed_emission_count (defaultSerialConfiguration "T")
      [97, 98, 99, 10, 100, 10] []).1
    rw [h]; decide
  · exact (feed_emission_count (defaultSerialConfiguration "T")
      [97, 98, 99] []).2 (by decide)

/-- C2 counterexample: the append to the buffer happens before the
separator comparison, so with an empty ignore list the separator byte
itself lands in the record: feeding the bytes of abc newline with
separator newline yields the record abc followed by newline, not abc,
and feeding ab carriage-return cd newline with ignore list holding
only carriage return yields abcd followed by newline, not abcd. -/
theorem record_excludes_separator_refuted :
    ¬((feedAll cfgEmptyIgnore [] [97, 98, 99, 10]).2 = ["abc"] ∧
      (feedAll cfgCRIgnore [] [97, 98, 13, 99, 100, 10]).2 = ["abcd"]) := by
  decide

/-- Feeding a concatenated byte sequence splits into feeding the first
part and then the second from the buffer the first part leaves behind,
with the emitted records concatenated in order. -/
theorem feedAll_append (cfg : SerialConfiguration) (buf xs ys : List Nat) :
    feedAll cfg buf (xs ++ ys)
      = ((feedAll cfg (feedAll cfg buf xs).1 ys).1,
          (feedAll cfg buf xs).2 ++ (feedAll cfg (feedAll cfg buf xs).1 ys).2) := by
  induction xs generalizing buf with
  | nil => simp [feedAll]
  | cons b tl ih => simp [feedAll, ih]

/-- Over a stretch of bytes holding no separator, the segmenter only
accumulates: no record is emitted and the buffer gains exactly the
bytes outside the ignore list, in order. -/
theorem feedAll_no_separator (cfg : SerialConfiguration) (bs buf : List Nat)
    (h : cfg.data_seperator ∉ bs) :
    feedAll cfg buf bs
      = (buf ++ bs.filter fun b => decide (b ∉ cfg.remove_byte_list), []) := by
  induction bs generalizing buf with
  | nil => simp [feedAll]
  | cons b tl ih =>
    have hb : b ≠ cfg.data_seperator := by
      intro hbe
      exact h (by rw [← hbe]; exact List.mem_cons_self b tl)
    have htl : cfg.data_seperator ∉ tl := fun hmem =>
      h (List.mem_cons_of_mem b hmem)
    by_cases hm : b ∈ cfg.remove_byte_list
    · have hih := ih buf htl
      simp [feedAll, feedByte, hb, hm, hih, List.filter_cons]
    · have hih := ih (buf ++ [b]) htl
      simp [feedAll, feedByte, hb, hm, hih, List.filter_cons]

/-- C2 amended: every emitted record holds the accumulated non-ignored
bytes up to and including the separator byte, decoded with the
configured encoding; the separator byte is excluded from the record
only when it is itself in the ignore list, as it is under the default
configuration.  Stated universally over the configuration, the pending
buffer and the separator-free stretch before the separator, then
instantiated at the round-trip scenarios of the spec. -/
theorem record_includes_unignored_separator :
    (∀ (cfg : SerialConfiguration) (buf bs : List Nat),
        cfg.data_seperator ∉ bs →
        (feedAll cfg buf (bs ++ [cfg.data_seperator])).2
          = [decodeRecord
              ((buf ++ bs.filter fun b => decide (b ∉ cfg.remove_byte_list)) ++
                if cfg.data_seperator ∈ cfg.remove_byte_list then []
                else [cfg.data_seperator])]) ∧
      (feedAll cfgEmptyIgnore [] [97, 98, 99, 10]).2 = ["abc\n"] ∧
      (feedAll cfgCRIgnore [] [97, 98, 13, 99, 100, 10]).2 = ["abcd\n"] ∧
      (feedAll (defaultSerialConfiguration "T") [] [97, 98, 99, 10]).2
        = ["abc"] := by
  refine ⟨?_, by decide, by decide, by decide⟩
  intro cfg buf bs h
  rw [feedAll_append cfg buf bs [cfg.data_seperator],
    feedAll_no_separator cfg bs buf h]
  by_cases hm : cfg.data_seperator ∈ cfg.remove_byte_list <;>
    simp [feedAll, feedByte, hm]

/-- C2 amended witness: the universal record characterization applied
to the second round-trip scenario, with ignore list carriage return
only: the record is abcd followed by the unignored newline
separator. -/
theorem record_includes_unignored_separator_witness :
    (feedAll cfgCRIgnore []
        ([97, 98, 13, 99, 100] ++ [cfgCRIgnore.data_seperator])).2
      = ["abcd\n"] := by
  have h := record_includes_unignored_separator.1 cfgCRIgnore []
    [97, 98, 13, 99, 100] (by decide)
  exact h.trans (by decide)

/-- C3: membership in the ignore list is checked before the separator
comparison, so a byte in the ignore list is never appended to the
pending buffer yet still triggers emission when it equals the
separator, and the emitted record decodes only the previously
accumulated buffer. -/
theorem ignore_checked_before_separator (cfg : SerialConfiguration)
    (buf : List Nat) (b : Nat) (h : b ∈ cfg.remove_byte_list) :
    feedByte cfg buf b =
      if b = cfg.data_seperator then ([], some (decodeRecord buf))
      else (buf, none) := by
  simp [feedByte, h]

/-- C3 witness: under the default configuration the newline byte is
both the separator and a member of the ignore list; it still triggers
emission and the record decodes only the prior buffer. -/
theorem ignore_checked_before_separator_witness :
    10 ∈ (defaultSerialConfiguration "T").remove_byte_list ∧
      feedByte (defaultSerialConfiguration "T") [97] 10 = ([], some "a") := by
  refine ⟨by decide, ?_⟩
  have h := ignore_checked_before_separator (defaultSerialConfiguration "T")
    [97] 10 (by decide)
  rw [h]; decide

/-- Newline counting distributes over string append; used to count the
lines a write adds to the log file. -/
theorem newlineCount_append (s t : String) :
    newlineCount (s ++ t) = newlineCount s + newlineCount t := by
  simp [newlineCount, String.data_append, List.count_append]

/-- C4: the recorder writes exactly one line for a record passing the
length check, which holds exactly when nominal_data_length is unset or
equals the decoded record length, and leaves the file unchanged (zero
lines) otherwise; both branches return normally, so the loop
continues. -/
theorem recorder_length_validation (cfg : SerialConfiguration)
    (ts fileContent rec : String)
    (hrec : newlineCount rec = 0) (hts : newlineCount ts = 0) :
    (lengthCheckPasses cfg rec.length = true →
        processRecord cfg ts fileContent rec
          = fileContent ++ (ts ++ "," ++ (rec ++ "\n")) ∧
        newlineCount (processRecord cfg ts fileContent rec)
          = newlineCount fileContent + 1) ∧
      (lengthCheckPasses cfg rec.length = false →
        processRecord cfg ts fileContent rec = fileContent) ∧
      (lengthCheckPasses cfg rec.length = true ↔
        cfg.nominal_data_length = none ∨
          cfg.nominal_data_length = some rec.length) := by
  refine ⟨fun h => ?_, fun h => ?_, ?_⟩
  · have heq : processRecord cfg ts fileContent rec
        = fileContent ++ (ts ++ "," ++ (rec ++ "\n")) := by
      simp [processRecord, write_data_point, h]
    refine ⟨heq, ?_⟩
    have hnl : newlineCount "\n" = 1 := by decide
    have hcm : newlineCount "," = 0 := by decide
    rw [heq]
    simp [newlineCount_append, hts, hrec, hnl, hcm]
  · simp [processRecord, h]
  · simp [lengthCheckPasses]

/-- C4 witness: with the default nominal length 8, a record of length 8
is written as one timestamped line and a record of length 4 leaves the
file unchanged. -/
theorem recorder_length_validation_witness :
    processRecord (defaultSerialConfiguration "T") "2024-01-01T00:00:00" ""
        "abcdefgh" = "2024-01-01T00:00:00,abcdefgh\n" ∧
      processRecord (defaultSerialConfiguration "T") "2024-01-01T00:00:00"
        "prev\n" "abcd" = "prev\n" := by
  constructor
  · have h := ((recorder_length_validation (defaultSerialConfiguration "T")
      "2024-01-01T00:00:00" "" "abcdefgh" (by decide) (by decide)).1
        (by decide)).1
    rw [h]; decide
  · exact (recorder_length_validation (defaultSerialConfiguration "T")
      "2024-01-01T00:00:00" "prev\n" "abcd" (by decide) (by decide)).2.1
        (by decide)

/-- C5: an accepted record is written as the timestamp taken at write
time, then the time separator, then the record text, then the line
terminator; in particular with timestamp 2024-01-01T00:00:00, record
abc and separator comma the file gains exactly that line. -/
theorem write_line_format (fileContent ts rec : String) :
    write_data_point fileContent rec ts true "\n" ","
        = fileContent ++ (ts ++ "," ++ (rec ++ "\n")) ∧
      write_data_point fileContent "abc" "2024-01-01T00:00:00" true "\n" ","
        = fileContent ++ "2024-01-01T00:00:00,abc\n" :=
  ⟨rfl, rfl⟩

/-- C6: any run of at most 10 consecutive transient read failures
followed by a success ends with the retry counter reset to 0 and the
guard reading again, having slept 6 time units before each re-attempt;
11 consecutive transient failures close the port and exit with status
2 after 10 backoff sleeps of 6 units. -/
theorem retry_budget (k : Nat) (hk : k ≤ 10) :
    guardRun (GuardState.running 0)
        (List.replicate k ReadEvent.transientFailure ++ [ReadEvent.success])
      = (GuardState.running 0, 6 * k) ∧
    guardRun (GuardState.running 0)
        (List.replicate 11 ReadEvent.transientFailure)
      = (GuardState.fatalExit 2 true, 60) := by
  constructor
  · have h : ∀ m, m ≤ 10 → guardRun (GuardState.running 0)
        (List.replicate m ReadEvent.transientFailure ++ [ReadEvent.success])
        = (GuardState.running 0, 6 * m) := by decide
    exact h k hk
  · decide

/-- C6 witness: exactly 10 transient failures then a success resume
reading with counter 0 after 60 units of backoff, while 11 transient
failures exit fatally with status 2. -/
theorem retry_budget_witness :
    guardRun (GuardState.running 0)
        (List.replicate 10 ReadEvent.transientFailure ++ [ReadEvent.success])
      = (GuardState.running 0, 60) ∧
    guardRun (GuardState.running 0)
        (List.replicate 11 ReadEvent.transientFailure)
      = (GuardState.fatalExit 2 true, 60) :=
  ⟨(retry_budget 10 (by decide)).1, (retry_budget 10 (by decide)).2⟩

/-- C7: a read failure that does not match the transient no-data
signature propagates immediately out of the read loop: the guard moves
to the raised state with no backoff sleep, and no later event changes
the state or the retry counter again. -/
theorem other_failure_propagates (n : Nat) (evs : List ReadEvent) :
    guardRun (GuardState.running n) (ReadEvent.otherFailure :: evs)
      = (GuardState.raised, 0) := by
  have habs : ∀ es : List ReadEvent,
      guardRun GuardState.raised es = (GuardState.raised, 0) := by
    intro es
    induction es with
    | nil => rfl
    | cons e tl ih => cases e <;> simp [guardRun, guardStep, ih]
  simp [guardRun, guardStep, habs]

/-- C8: a write only ever appends: the file content after
write_data_point extends the prior content, whose characters are all
unchanged. -/
theorem append_preserves_previous_content
    (fileContent data_point timestamp : String) (add_timestamp : Bool)
    (suffix time_seperator : String) :
    ((write_data_point fileContent data_point timestamp add_timestamp suffix
        time_seperator).data.take fileContent.data.length
      = fileContent.data) ∧
    ∃ s, write_data_point fileContent data_point timestamp add_timestamp
        suffix time_seperator = fileContent ++ s := by
  constructor
  · simp [write_data_point, String.data_append, List.take_left]
  · exact ⟨_, rfl⟩

/-- C9: after post_init_ the ignore list is never empty: an empty (or
defaulted) remove_byte_list is replaced by newline and carriage return,
so an explicitly empty ignore set cannot be configured through the
public configuration record. -/
theorem post_init_remove_byte_list_nonempty (nowIso : String)
    (c : SerialConfiguration) :
    (postInit nowIso c).remove_byte_list ≠ [] ∧
      (c.remove_byte_list = [] →
        (postInit nowIso c).remove_byte_list = [10, 13]) := by
  by_cases h : c.remove_byte_list = [] <;> simp [postInit, h]

/-- C9 witness: the all-defaults configuration has an empty
remove_byte_list, and post_init_ replaces it with newline and carriage
return. -/
theorem post_init_remove_byte_list_nonempty_witness :
    (postInit "2024-01-01T00:00:00" {}).remove_byte_list = [10, 13] :=
  (post_init_remove_byte_list_nonempty "2024-01-01T00:00:00" {}).2 rfl

/-- C10: nominal_data_length defaults to 8, not to unset, so the
all-defaults configuration built by main enables length checking: a
record passes exactly when its decoded length is 8, and every other
record leaves the log file unchanged. -/
theorem default_config_length_check (nowIso ts fileContent rec : String) :
    (defaultSerialConfiguration nowIso).nominal_data_length = some 8 ∧
      (lengthCheckPasses (defaultSerialConfiguration nowIso) rec.length = true
        ↔ rec.length = 8) ∧
      (rec.length ≠ 8 →
        processRecord (defaultSerialConfiguration nowIso) ts fileContent rec
          = fileContent) := by
  refine ⟨rfl, ?_, fun h => ?_⟩
  · constructor
    · intro h
      simp [lengthCheckPasses, defaultSerialConfiguration, postInit] at h
      exact h.symm
    · intro h
      simp [lengthCheckPasses, defaultSerialConfiguration, postInit, h]
  · simp [processRecord, lengthCheckPasses, defaultSerialConfiguration,
      postInit]
    intro hh
    exact absurd hh.symm h

/-- C10 witness: under the all-defaults configuration a record of
length 2 is dropped without touching the file. -/
theorem default_config_length_check_witness :
    processRecord (defaultSerialConfiguration "T") "2024-01-01T00:00:00"
        "old\n" "ab" = "old\n" :=
  (default_config_length_check "T" "2024-01-01T00:00:00" "old\n" "ab").2.2
    (by decide)

end SerialLogger
